import Mathlib

/-!
Shallow embedding of the quantum-state-to-scalar-field core of the SYSTEM
repository (Blender/Scripts/Quantum): quantum_constants.py,
hydrogen_wavefunctions.py, orbital_coefficients.py, bloch_orbital_mapper.py.

Python floats are modelled as real numbers, complex values as Mathlib ℂ,
dicts keyed by quantum-number triples as association lists in insertion
order, and raised exceptions as Except.error.
-/

namespace SystemQuantum

open Real

/-- Python float modulus `x % y` (sign follows the divisor, floor based). -/
noncomputable def fmod (x y : ℝ) : ℝ := x - y * ⌊x / y⌋

/-- numpy.clip of a scalar into the interval lo..hi. -/
noncomputable def clip (x lo hi : ℝ) : ℝ := min (max x lo) hi

/-- numpy.arctan2 y x, as the argument of the complex number x + y i. -/
noncomputable def arctan2 (y x : ℝ) : ℝ := Complex.arg ⟨x, y⟩

/-- A quantum-number triple (n, l, m) as used for dict keys in the source. -/
abbrev QN := ℕ × ℕ × ℤ

/-- An orbital-coefficient dict: association list from (n,l,m) to a complex
amplitude, in insertion order. -/
abbrev CoeffMap := List (QN × ℂ)

-- ===========================================================================
-- quantum_constants.py
-- ===========================================================================

/-- MAX_PRINCIPAL_QUANTUM_NUMBER from quantum_constants.py. -/
def MAX_PRINCIPAL_QUANTUM_NUMBER : ℕ := 7

/-- validate_quantum_numbers from quantum_constants.py: the checks performed
by the source (n positive, 0 ≤ l < n, |m| ≤ l, n ≤ 7); the source raises
ValueError when any fails, which callers model via this Bool. -/
def valid_qn (n l : ℕ) (m : ℤ) : Bool :=
  1 ≤ n && l < n && m.natAbs ≤ l && n ≤ MAX_PRINCIPAL_QUANTUM_NUMBER

/-- RADIAL_NORMALIZATION table from quantum_constants.py (precomputed radial
normalization constants for common (n, l)). -/
noncomputable def RADIAL_NORMALIZATION : ℕ × ℕ → Option ℝ
  | (1, 0) => some 2
  | (2, 0) => some (1 / (2 * Real.sqrt 2))
  | (2, 1) => some (1 / (2 * Real.sqrt 6))
  | (3, 0) => some (2 / (27 * Real.sqrt 3))
  | (3, 1) => some (4 / (27 * Real.sqrt 6))
  | (3, 2) => some (2 / (81 * Real.sqrt 30))
  | _ => none

/-- DEFAULT_GRID_RESOLUTION from quantum_constants.py. -/
def DEFAULT_GRID_RESOLUTION : ℕ := 64

/-- ORBITAL_EXTENT lookup with the `n * 10` fallback of get_orbital_extent. -/
noncomputable def get_orbital_extent (n : ℕ) : ℝ :=
  match n with
  | 1 => 10 | 2 => 20 | 3 => 30 | 4 => 40 | 5 => 50 | 6 => 60 | 7 => 70
  | _ => n * 10

/-- A 2x2 complex matrix, row major: entries a b on the first row, c d on
the second.  Gate matrices in quantum_constants.py are numpy arrays of this
shape. -/
structure Mat2 where
  a : ℂ
  b : ℂ
  c : ℂ
  d : ℂ

/-- Matrix-vector product `M @ v` for a 2-component complex vector. -/
def Mat2.apply (M : Mat2) (v : ℂ × ℂ) : ℂ × ℂ :=
  (M.a * v.1 + M.b * v.2, M.c * v.1 + M.d * v.2)

/-- PAULI_X from quantum_constants.py. -/
def PAULI_X : Mat2 := ⟨0, 1, 1, 0⟩

/-- PAULI_Y from quantum_constants.py. -/
def PAULI_Y : Mat2 := ⟨0, -Complex.I, Complex.I, 0⟩

/-- PAULI_Z from quantum_constants.py. -/
def PAULI_Z : Mat2 := ⟨1, 0, 0, -1⟩

/-- IDENTITY from quantum_constants.py. -/
def IDENTITY : Mat2 := ⟨1, 0, 0, 1⟩

/-- HADAMARD from quantum_constants.py: [[1,1],[1,-1]] / sqrt 2. -/
noncomputable def HADAMARD : Mat2 :=
  ⟨1 / (Real.sqrt 2 : ℝ), 1 / (Real.sqrt 2 : ℝ),
   1 / (Real.sqrt 2 : ℝ), -(1 / (Real.sqrt 2 : ℝ))⟩

/-- S_GATE from quantum_constants.py. -/
def S_GATE : Mat2 := ⟨1, 0, 0, Complex.I⟩

/-- T_GATE from quantum_constants.py. -/
noncomputable def T_GATE : Mat2 :=
  ⟨1, 0, 0, Complex.exp (Complex.I * Real.pi / 4)⟩

/-- rotation_x from quantum_constants.py. -/
noncomputable def rotation_x (t : ℝ) : Mat2 :=
  ⟨(Real.cos (t / 2) : ℝ), -Complex.I * (Real.sin (t / 2) : ℝ),
   -Complex.I * (Real.sin (t / 2) : ℝ), (Real.cos (t / 2) : ℝ)⟩

/-- rotation_y from quantum_constants.py. -/
noncomputable def rotation_y (t : ℝ) : Mat2 :=
  ⟨(Real.cos (t / 2) : ℝ), (-Real.sin (t / 2) : ℝ),
   (Real.sin (t / 2) : ℝ), (Real.cos (t / 2) : ℝ)⟩

/-- rotation_z from quantum_constants.py. -/
noncomputable def rotation_z (t : ℝ) : Mat2 :=
  ⟨Complex.exp (-Complex.I * t / 2), 0, 0, Complex.exp (Complex.I * t / 2)⟩

/-- QUANTUM_GATES name lookup from quantum_constants.py. -/
noncomputable def QUANTUM_GATES (s : String) : Option Mat2 :=
  if s = "X" then some PAULI_X
  else if s = "Y" then some PAULI_Y
  else if s = "Z" then some PAULI_Z
  else if s = "H" then some HADAMARD
  else if s = "S" then some S_GATE
  else if s = "T" then some T_GATE
  else if s = "I" then some IDENTITY
  else none

/-- One entry of BLOCH_PURE_STATES from quantum_constants.py. -/
structure PureStateInfo where
  theta : ℝ
  phi : ℝ
  orbital : QN
  name : String

/-- BLOCH_PURE_STATES lookup from quantum_constants.py. -/
noncomputable def BLOCH_PURE_STATES (s : String) : Option PureStateInfo :=
  if s = "|0>" then some ⟨0, 0, (1, 0, 0), "1s"⟩
  else if s = "|1>" then some ⟨Real.pi, 0, (2, 0, 0), "2s"⟩
  else if s = "|+>" then some ⟨Real.pi / 2, 0, (2, 1, 1), "2px"⟩
  else if s = "|->" then some ⟨Real.pi / 2, Real.pi, (2, 1, -1), "2px*"⟩
  else if s = "|+i>" then some ⟨Real.pi / 2, Real.pi / 2, (2, 1, 0), "2py"⟩
  else if s = "|-i>" then some ⟨Real.pi / 2, 3 * Real.pi / 2, (2, 1, 0), "2py*"⟩
  else none

-- ===========================================================================
-- hydrogen_wavefunctions.py
-- ===========================================================================

/-- generalized_laguerre from hydrogen_wavefunctions.py
(scipy.special.eval_genlaguerre), via the standard finite sum
L_n^a(x) = sum_k (-1)^k C(n+a, n-k) x^k / k!. -/
noncomputable def generalized_laguerre (n a : ℕ) (x : ℝ) : ℝ :=
  ∑ k ∈ Finset.range (n + 1),
    (-1 : ℝ) ^ k * ((n + a).choose (n - k) : ℝ) * x ^ k / (Nat.factorial k : ℝ)

/-- The computed radial normalization constant
N = sqrt((2/n)^3 * (n-l-1)! / (2n * (n+l)!)) of radial_wavefunction. -/
noncomputable def radial_norm_factor (n l : ℕ) : ℝ :=
  Real.sqrt ((2 / (n : ℝ)) ^ 3 * (Nat.factorial (n - l - 1) : ℝ) /
    (2 * (n : ℝ) * (Nat.factorial (n + l) : ℝ)))

/-- radial_wavefunction from hydrogen_wavefunctions.py (scalar case).  The
source guards r = 0 explicitly: 0 for l > 0 and the normalization constant
for l = 0; away from 0 it evaluates the closed formula with
r_safe = r when r > 0 (else 1e-10).  Its own validate_quantum_numbers call
is performed by hydrogen_orbital below, before this is reached. -/
noncomputable def radial_wavefunction (n l : ℕ) (r : ℝ) : ℝ :=
  let r_safe := if 0 < r then r else 1e-10
  let rho := 2 * r_safe / (n : ℝ)
  let R := radial_norm_factor n l * Real.exp (-rho / 2) * rho ^ l *
    generalized_laguerre (n - l - 1) (2 * l + 1) rho
  if r = 0 then (if 0 < l then 0 else radial_norm_factor n l) else R

/-- Legendre polynomial P_l, by the standard expansion
P_l(x) = 2^(-l) * sum_k C(l,k)^2 (x-1)^(l-k) (x+1)^k. -/
noncomputable def legendreP (l : ℕ) : Polynomial ℝ :=
  Polynomial.C ((1 : ℝ) / 2 ^ l) *
    ∑ k ∈ Finset.range (l + 1),
      Polynomial.C ((l.choose k : ℝ) ^ 2) *
        (Polynomial.X - 1) ^ (l - k) * (Polynomial.X + 1) ^ k

/-- Associated Legendre function P_l^m for m ≥ 0, with the Condon-Shortley
phase (-1)^m, as included in scipy.special.sph_harm. -/
noncomputable def assocLegendre (l mn : ℕ) (x : ℝ) : ℝ :=
  (-1 : ℝ) ^ mn * (Real.sqrt (1 - x ^ 2)) ^ mn *
    (Polynomial.derivative^[mn] (legendreP l)).eval x

/-- Associated Legendre function for integer m, with the standard
negative-m relation P_l^(-m) = (-1)^m (l-m)!/(l+m)! P_l^m. -/
noncomputable def lpmv (m : ℤ) (l : ℕ) (x : ℝ) : ℝ :=
  if 0 ≤ m then assocLegendre l m.toNat x
  else
    (-1 : ℝ) ^ (-m).toNat *
      ((Nat.factorial (l - (-m).toNat) : ℝ) / (Nat.factorial (l + (-m).toNat) : ℝ)) *
      assocLegendre l (-m).toNat x

/-- scipy.special.sph_harm m l phi theta: complex spherical harmonic with
Condon-Shortley phase, Y_l^m = sqrt((2l+1)/(4 pi) * (l-m)!/(l+m)!) *
P_l^m(cos theta) * exp(i m phi). -/
noncomputable def scipy_sph_harm (m : ℤ) (l : ℕ) (phi theta : ℝ) : ℂ :=
  ((Real.sqrt ((2 * (l : ℝ) + 1) / (4 * Real.pi) *
      ((Nat.factorial ((l : ℤ) - m).toNat : ℝ) / (Nat.factorial ((l : ℤ) + m).toNat : ℝ))) : ℝ) : ℂ) *
    ((lpmv m l (Real.cos theta) : ℝ) : ℂ) *
    Complex.exp (Complex.I * (m : ℝ) * (phi : ℝ))

/-- spherical_harmonic from hydrogen_wavefunctions.py: the complex harmonic,
converted to the real orthonormal form when real_form holds and m ≠ 0
(returning only the real part, as the source does via np.real). -/
noncomputable def spherical_harmonic (l : ℕ) (m : ℤ) (theta phi : ℝ)
    (real_form : Bool) : ℂ :=
  let Y := scipy_sph_harm m l phi theta
  if real_form ∧ m ≠ 0 then
    if 0 < m then
      ((((Y + (-1 : ℂ) ^ m * (starRingEnd ℂ) (scipy_sph_harm (-m) l phi theta)) /
          (Real.sqrt 2 : ℝ)).re : ℝ) : ℂ)
    else
      ((((Y - (-1 : ℂ) ^ m * (starRingEnd ℂ) (scipy_sph_harm (-m) l phi theta)) /
          (Complex.I * (Real.sqrt 2 : ℝ))).re : ℝ) : ℂ)
  else Y

/-- cartesian_to_spherical from hydrogen_wavefunctions.py:
r, then theta = arccos(clip(z / max(r, 1e-10), -1, 1)),
then phi = arctan2 shifted into the range 0..2 pi. -/
noncomputable def cartesian_to_spherical (x y z : ℝ) : ℝ × ℝ × ℝ :=
  let r := Real.sqrt (x ^ 2 + y ^ 2 + z ^ 2)
  let theta := Real.arccos (clip (z / max r 1e-10) (-1) 1)
  let phi0 := arctan2 y x
  let phi := if phi0 < 0 then phi0 + 2 * Real.pi else phi0
  (r, theta, phi)

/-- The value computed by hydrogen_orbital once validation has passed:
convert coordinates and return R_nl(r) * Y_l^m(theta, phi). -/
noncomputable def hydrogen_orbital_val (n l : ℕ) (m : ℤ) (x y z : ℝ)
    (real_form : Bool) : ℂ :=
  let s := cartesian_to_spherical x y z
  ((radial_wavefunction n l s.1 : ℝ) : ℂ) *
    spherical_harmonic l m s.2.1 s.2.2 real_form

/-- hydrogen_orbital from hydrogen_wavefunctions.py: validates the quantum
numbers (ValueError modelled as Except.error), converts coordinates, and
returns R_nl(r) * Y_l^m(theta, phi). -/
noncomputable def hydrogen_orbital (n l : ℕ) (m : ℤ) (x y z : ℝ)
    (real_form : Bool) : Except String ℂ :=
  if valid_qn n l m then .ok (hydrogen_orbital_val n l m x y z real_form)
  else .error "InvalidQuantumNumbers"

-- ===========================================================================
-- orbital_coefficients.py: Bloch sphere and state-vector conversions
-- ===========================================================================

/-- bloch_to_state_vector from orbital_coefficients.py:
alpha = cos(theta/2), beta = exp(i phi) * sin(theta/2). -/
noncomputable def bloch_to_state_vector (theta phi : ℝ) : ℂ × ℂ :=
  ((Real.cos (theta / 2) : ℝ),
   Complex.exp (Complex.I * phi) * (Real.sin (theta / 2) : ℝ))

/-- state_vector_to_bloch from orbital_coefficients.py: renormalizes, then
theta = 2 arccos |alpha|, phi = (angle beta - angle alpha) mod 2 pi. -/
noncomputable def state_vector_to_bloch (v : ℂ × ℂ) : ℝ × ℝ :=
  let norm := Real.sqrt (Complex.abs v.1 ^ 2 + Complex.abs v.2 ^ 2)
  let alpha := v.1 / (norm : ℝ)
  let beta := v.2 / (norm : ℝ)
  let theta := 2 * Real.arccos (Complex.abs alpha)
  let phi := fmod (Complex.arg beta - Complex.arg alpha) (2 * Real.pi)
  (theta, phi)

/-- bloch_to_orbital_coeffs from orbital_coefficients.py; the `else` branch
raises ValueError (unknown basis). -/
noncomputable def bloch_to_orbital_coeffs (theta phi : ℝ) (basis : String) :
    Except String CoeffMap :=
  let sv := bloch_to_state_vector theta phi
  if basis = "sp" then
    .ok [((1, 0, 0), sv.1), ((2, 0, 0), sv.2)]
  else if basis = "pp" then
    let cos_half := Real.cos (theta / 2)
    let sin_half := Real.sin (theta / 2)
    let c_px := sin_half * Real.cos phi
    let c_py := sin_half * Real.sin phi
    let c_pz := cos_half
    .ok [((2, 1, 1), (c_px : ℝ)), ((2, 1, -1), (c_py : ℝ)), ((2, 1, 0), (c_pz : ℝ))]
  else if basis = "sd" then
    .ok [((1, 0, 0), sv.1), ((3, 2, 0), sv.2)]
  else
    .error ("Unknown basis: " ++ basis)

/-- The accumulation loop of orbital_coeffs_to_density: for each dict entry
add coeff * hydrogen_orbital(n,l,m,x,y,z, real_form=True) into psi_total; a
ValueError raised by hydrogen_orbital on an invalid key aborts the loop. -/
noncomputable def psi_total_loop (x y z : ℝ) : CoeffMap → ℂ → Except String ℂ
  | [], acc => .ok acc
  | p :: ps, acc =>
    match hydrogen_orbital p.1.1 p.1.2.1 p.1.2.2 x y z true with
    | .error e => .error e
    | .ok psi_i => psi_total_loop x y z ps (acc + p.2 * psi_i)

/-- orbital_coeffs_to_density from orbital_coefficients.py: run the
psi_total accumulation loop from 0.0, then return |psi_total|^2. -/
noncomputable def orbital_coeffs_to_density (coeffs : CoeffMap) (x y z : ℝ) :
    Except String ℝ :=
  match psi_total_loop x y z coeffs 0 with
  | .error e => .error e
  | .ok psi_total => .ok (Complex.abs psi_total ^ 2)

-- ===========================================================================
-- orbital_coefficients.py: gate application
-- ===========================================================================

/-- The gate argument of apply_gate_to_state: either a gate-name string
(looked up in QUANTUM_GATES), a rotation string "RX(a)" / "RY(a)" / "RZ(a)"
with the literal angle a carried in the identifier, or an explicit 2x2
matrix.  The rotation strings are modelled with the parsed angle. -/
inductive GateArg where
  | named (s : String)
  | rx (angle : ℝ)
  | ry (angle : ℝ)
  | rz (angle : ℝ)
  | explicit (M : Mat2)

/-- apply_gate_to_state from orbital_coefficients.py: resolve the gate
specification (unknown names raise ValueError) and left-multiply. -/
noncomputable def apply_gate_to_state (v : ℂ × ℂ) (gate : GateArg) :
    Except String (ℂ × ℂ) :=
  match gate with
  | .rx a => .ok ((rotation_x a).apply v)
  | .ry a => .ok ((rotation_y a).apply v)
  | .rz a => .ok ((rotation_z a).apply v)
  | .explicit M => .ok (M.apply v)
  | .named s =>
    match QUANTUM_GATES s with
    | some M => .ok (M.apply v)
    | none => .error ("Unknown gate: " ++ s)

/-- apply_gate_to_bloch from orbital_coefficients.py: round trip through
state-vector form. -/
noncomputable def apply_gate_to_bloch (theta phi : ℝ) (gate : GateArg) :
    Except String (ℝ × ℝ) := do
  let state := bloch_to_state_vector theta phi
  let new_state ← apply_gate_to_state state gate
  pure (state_vector_to_bloch new_state)

-- ===========================================================================
-- bloch_orbital_mapper.py: the BlochOrbitalState class
-- ===========================================================================

/-- The (x_grid, y_grid, z_grid, density_grid) tuple returned by
BlochOrbitalState.calculate_density_grid, as index functions over the
resolution^3 lattice, together with the resolution and extent that shaped
the arrays (both observable from the numpy arrays: the shape and the
endpoint values). -/
structure GridData where
  resolution : ℕ
  extent : ℝ
  xg : ℕ → ℕ → ℕ → ℝ
  yg : ℕ → ℕ → ℕ → ℝ
  zg : ℕ → ℕ → ℕ → ℝ
  density : ℕ → ℕ → ℕ → Except String ℝ

/-- numpy.linspace(-extent, extent, resolution) at index i. -/
noncomputable def linspace (extent : ℝ) (resolution i : ℕ) : ℝ :=
  if resolution = 1 then -extent
  else -extent + (i : ℝ) * (2 * extent) / ((resolution : ℝ) - 1)

/-- The grid built by calculate_density_grid: meshgrid with ij indexing and
the pointwise density of the orbital mixture. -/
noncomputable def mkDensityGrid (coeffs : CoeffMap) (resolution : ℕ)
    (extent : ℝ) : GridData where
  resolution := resolution
  extent := extent
  xg := fun i _ _ => linspace extent resolution i
  yg := fun _ j _ => linspace extent resolution j
  zg := fun _ _ k => linspace extent resolution k
  density := fun i j k =>
    orbital_coeffs_to_density coeffs (linspace extent resolution i)
      (linspace extent resolution j) (linspace extent resolution k)

/-- The fields of a BlochOrbitalState instance from bloch_orbital_mapper.py:
basis string, Bloch angles, derived state vector and orbital coefficients,
and the nullable density-grid cache (a plain cached-value field with no
resolution/extent key). -/
structure BlochOrbitalState where
  basis : String
  theta : ℝ
  phi : ℝ
  state_vector : ℂ × ℂ
  orbital_coeffs : CoeffMap
  densityCache : Option GridData

/-- BlochOrbitalState.set_bloch_state: store the angles, derive the state
vector and orbital coefficients, and clear the density cache.  A ValueError
from bloch_to_orbital_coeffs (unknown basis) is modelled as an error with
the state unchanged. -/
noncomputable def BlochOrbitalState.set_bloch_state (s : BlochOrbitalState)
    (theta phi : ℝ) : Except String BlochOrbitalState := do
  let coeffs ← bloch_to_orbital_coeffs theta phi s.basis
  pure { s with
    theta := theta
    phi := phi
    state_vector := bloch_to_state_vector theta phi
    orbital_coeffs := coeffs
    densityCache := none }

/-- BlochOrbitalState.set_state_vector: renormalize on entry, store the
normalized vector, derive the Bloch angles and orbital coefficients, and
clear the density cache. -/
noncomputable def BlochOrbitalState.set_state_vector (s : BlochOrbitalState)
    (v : ℂ × ℂ) : Except String BlochOrbitalState := do
  let norm := Real.sqrt (Complex.abs v.1 ^ 2 + Complex.abs v.2 ^ 2)
  let v' : ℂ × ℂ := (v.1 / (norm : ℝ), v.2 / (norm : ℝ))
  let tp := state_vector_to_bloch v'
  let coeffs ← bloch_to_orbital_coeffs tp.1 tp.2 s.basis
  pure { s with
    theta := tp.1
    phi := tp.2
    state_vector := v'
    orbital_coeffs := coeffs
    densityCache := none }

/-- BlochOrbitalState.set_pure_state: look the name up in BLOCH_PURE_STATES
(ValueError when unknown) and delegate to set_bloch_state. -/
noncomputable def BlochOrbitalState.set_pure_state (s : BlochOrbitalState)
    (state_name : String) : Except String BlochOrbitalState :=
  match BLOCH_PURE_STATES state_name with
  | none => .error ("Unknown state: " ++ state_name)
  | some info => s.set_bloch_state info.theta info.phi

/-- BlochOrbitalState.apply_gate: compute the new Bloch angles through
apply_gate_to_bloch and update via set_bloch_state. -/
noncomputable def BlochOrbitalState.apply_gate (s : BlochOrbitalState)
    (gate : GateArg) : Except String BlochOrbitalState := do
  let tp ← apply_gate_to_bloch s.theta s.phi gate
  s.set_bloch_state tp.1 tp.2

/-- Assignment to the public basis attribute, `state.basis = b`: the class
has no basis mutator method, so a basis change is a plain attribute write,
which touches no other field. -/
def BlochOrbitalState.set_basis_attr (s : BlochOrbitalState) (b : String) :
    BlochOrbitalState :=
  { s with basis := b }

/-- The max(nlm[0] for nlm in coeffs.keys()) computed for the default
extent (well defined on the nonempty coefficient dicts the class builds). -/
def maxPrincipal (coeffs : CoeffMap) : ℕ :=
  (coeffs.map fun p => p.1.1).foldl max 0

/-- BlochOrbitalState.calculate_density_grid: return the cache whenever
use_cache holds and a cache is present (the source compares no
resolution/extent key); otherwise fill defaults, build the grid, and store
it in the cache. -/
noncomputable def BlochOrbitalState.calculate_density_grid
    (s : BlochOrbitalState) (resolution : Option ℕ) (extent : Option ℝ)
    (use_cache : Bool) : GridData × BlochOrbitalState :=
  match use_cache, s.densityCache with
  | true, some g => (g, s)
  | _, _ =>
    let res := resolution.getD DEFAULT_GRID_RESOLUTION
    let ext := match extent with
      | some e => e
      | none => get_orbital_extent (maxPrincipal s.orbital_coeffs)
    let g := mkDensityGrid s.orbital_coeffs res ext
    (g, { s with densityCache := some g })

/-- BlochOrbitalState.__init__: default fields, then set_bloch_state with
the requested angles. -/
noncomputable def BlochOrbitalState.init (theta phi : ℝ) (basis : String) :
    Except String BlochOrbitalState :=
  BlochOrbitalState.set_bloch_state
    ⟨basis, 0, 0, ((1 : ℂ), (0 : ℂ)), [], none⟩ theta phi

-- ===========================================================================
-- Concrete instances used in witnesses and counterexamples
-- ===========================================================================

/-- The field values BlochOrbitalState.__init__ installs before calling
set_bloch_state. -/
def pre_init_state : BlochOrbitalState :=
  ⟨"sp", 0, 0, ((1 : ℂ), (0 : ℂ)), [], none⟩

/-- The state produced by set_bloch_state pre_init_state 0 0. -/
noncomputable def example_mutated_state : BlochOrbitalState :=
  ⟨"sp", 0, 0, bloch_to_state_vector 0 0,
   [((1, 0, 0), (bloch_to_state_vector 0 0).1),
    ((2, 0, 0), (bloch_to_state_vector 0 0).2)], none⟩

/-- A small density grid, for exercising the cache. -/
noncomputable def example_grid : GridData :=
  mkDensityGrid [((1, 0, 0), (1 : ℂ))] 4 10

/-- A state holding example_grid in its density cache. -/
noncomputable def example_cached_state : BlochOrbitalState :=
  ⟨"sp", 0, 0, ((1 : ℂ), (0 : ℂ)), [((1, 0, 0), (1 : ℂ))], some example_grid⟩

/-- The same state with an empty density cache. -/
def example_uncached_state : BlochOrbitalState :=
  ⟨"sp", 0, 0, ((1 : ℂ), (0 : ℂ)), [((1, 0, 0), (1 : ℂ))], none⟩

-- ===========================================================================
-- Helper lemmas
-- ===========================================================================

lemma fmod_zero (y : ℝ) : fmod 0 y = 0 := by
  simp [fmod]

lemma fmod_eq_self {x y : ℝ} (h0 : 0 ≤ x) (h1 : x < y) : fmod x y = x := by
  have hy : 0 < y := lt_of_le_of_lt h0 h1
  have hfl : ⌊x / y⌋ = 0 := by
    rw [Int.floor_eq_zero_iff]
    exact ⟨div_nonneg h0 hy.le, (div_lt_one hy).mpr h1⟩
  simp [fmod, hfl]

lemma fmod_neg_add {x y : ℝ} (h0 : -y ≤ x) (h1 : x < 0) (hy : 0 < y) :
    fmod x y = x + y := by
  have hfl : ⌊x / y⌋ = -1 := by
    rw [Int.floor_eq_iff]
    push_cast
    refine ⟨by rw [le_div_iff hy]; linarith, ?_⟩
    have := div_neg_of_neg_of_pos h1 hy
    linarith
  rw [fmod, hfl]
  push_cast
  ring

lemma fmod_mem (x y : ℝ) (hy : 0 < y) : 0 ≤ fmod x y ∧ fmod x y < y := by
  have h1 : (⌊x / y⌋ : ℝ) * y ≤ x := by
    rw [← le_div_iff₀ hy]
    exact Int.floor_le _
  have h2 : x < ((⌊x / y⌋ : ℝ) + 1) * y := by
    rw [← div_lt_iff₀ hy]
    exact Int.lt_floor_add_one _
  unfold fmod
  constructor <;> nlinarith

lemma one_div_sqrt_two : (1 : ℝ) / Real.sqrt 2 = Real.sqrt 2 / 2 := by
  rw [div_eq_div_iff (Real.sqrt_pos.mpr two_pos).ne' two_ne_zero, one_mul,
    Real.mul_self_sqrt (by norm_num)]

/-- state_vector_to_bloch with its let bindings unfolded. -/
lemma sv2b_eq (v : ℂ × ℂ) :
    state_vector_to_bloch v =
      (2 * Real.arccos (Complex.abs (v.1 /
          ((Real.sqrt (Complex.abs v.1 ^ 2 + Complex.abs v.2 ^ 2) : ℝ) : ℂ))),
        fmod (Complex.arg (v.2 /
            ((Real.sqrt (Complex.abs v.1 ^ 2 + Complex.abs v.2 ^ 2) : ℝ) : ℂ)) -
          Complex.arg (v.1 /
            ((Real.sqrt (Complex.abs v.1 ^ 2 + Complex.abs v.2 ^ 2) : ℝ) : ℂ)))
          (2 * Real.pi)) := rfl

lemma abs_exp_I_mul (phi : ℝ) : Complex.abs (Complex.exp (Complex.I * phi)) = 1 := by
  rw [Complex.abs_exp]
  simp

lemma bloch_norm_sq (theta phi : ℝ) :
    Complex.abs (bloch_to_state_vector theta phi).1 ^ 2 +
      Complex.abs (bloch_to_state_vector theta phi).2 ^ 2 = 1 := by
  simp only [bloch_to_state_vector, map_mul, Complex.abs_ofReal, abs_exp_I_mul,
    one_mul, sq_abs, mul_pow]
  exact Real.cos_sq_add_sin_sq (theta / 2)

-- ===========================================================================
-- Claim theorems
-- ===========================================================================

/-- C7: bloch_to_state_vector returns (cos(theta/2), exp(i phi) sin(theta/2)),
a unit-norm 2-component complex vector, and at theta = pi/2, phi = 0 both
components have absolute value 1/sqrt 2. -/
theorem bloch_to_state_vector_spec :
    (∀ theta phi : ℝ,
        bloch_to_state_vector theta phi =
          (((Real.cos (theta / 2) : ℝ) : ℂ),
            Complex.exp (Complex.I * phi) * ((Real.sin (theta / 2) : ℝ) : ℂ)) ∧
        Complex.abs (bloch_to_state_vector theta phi).1 ^ 2 +
          Complex.abs (bloch_to_state_vector theta phi).2 ^ 2 = 1) ∧
    Complex.abs (bloch_to_state_vector (Real.pi / 2) 0).1 = 1 / Real.sqrt 2 ∧
    Complex.abs (bloch_to_state_vector (Real.pi / 2) 0).2 = 1 / Real.sqrt 2 := by
  refine ⟨fun theta phi => ⟨rfl, bloch_norm_sq theta phi⟩, ?_, ?_⟩
  · simp only [bloch_to_state_vector]
    rw [show Real.pi / 2 / 2 = Real.pi / 4 by ring, Complex.abs_ofReal,
      Real.cos_pi_div_four, one_div_sqrt_two]
    rw [abs_of_nonneg (by positivity)]
  · simp only [bloch_to_state_vector, map_mul, abs_exp_I_mul, one_mul,
      Complex.abs_ofReal]
    rw [show Real.pi / 2 / 2 = Real.pi / 4 by ring, Real.sin_pi_div_four,
      one_div_sqrt_two]
    rw [abs_of_nonneg (by positivity)]

/-- C9: bloch_to_orbital_coeffs raises exactly when the basis is not one of
sp, pp, sd; for a supported basis it returns normally for every theta, phi. -/
theorem bloch_to_orbital_coeffs_error_iff (theta phi : ℝ) (b : String) :
    (∃ e, bloch_to_orbital_coeffs theta phi b = .error e) ↔
      ¬(b = "sp" ∨ b = "pp" ∨ b = "sd") := by
  unfold bloch_to_orbital_coeffs
  split_ifs with h1 h2 h3 <;> simp_all

/-- C10: for a nonzero input vector, state_vector_to_bloch lands in the
canonical ranges 0 ≤ theta ≤ pi and 0 ≤ phi < 2 pi. -/
theorem state_vector_to_bloch_canonical (v : ℂ × ℂ) (h : v ≠ (0, 0)) :
    0 ≤ (state_vector_to_bloch v).1 ∧ (state_vector_to_bloch v).1 ≤ Real.pi ∧
    0 ≤ (state_vector_to_bloch v).2 ∧ (state_vector_to_bloch v).2 < 2 * Real.pi := by
  rw [sv2b_eq]
  dsimp only
  have h2pi : (0 : ℝ) < 2 * Real.pi := by positivity
  refine ⟨mul_nonneg (by norm_num) (Real.arccos_nonneg _), ?_,
    (fmod_mem _ _ h2pi).1, (fmod_mem _ _ h2pi).2⟩
  have harc : Real.arccos (Complex.abs (v.1 / ((Real.sqrt
      (Complex.abs v.1 ^ 2 + Complex.abs v.2 ^ 2) : ℝ) : ℂ))) ≤ Real.pi / 2 := by
    rw [Real.arccos_eq_pi_div_two_sub_arcsin]
    have harcsin := Real.arcsin_nonneg.mpr (AbsoluteValue.nonneg Complex.abs
      (v.1 / ((Real.sqrt (Complex.abs v.1 ^ 2 + Complex.abs v.2 ^ 2) : ℝ) : ℂ)))
    linarith
  linarith

/-- C10 witness at the concrete vector (1, 0). -/
theorem state_vector_to_bloch_canonical_witness :
    ((1 : ℂ), (0 : ℂ)) ≠ ((0 : ℂ), (0 : ℂ)) ∧
    0 ≤ (state_vector_to_bloch ((1 : ℂ), (0 : ℂ))).1 ∧
    (state_vector_to_bloch ((1 : ℂ), (0 : ℂ))).1 ≤ Real.pi ∧
    0 ≤ (state_vector_to_bloch ((1 : ℂ), (0 : ℂ))).2 ∧
    (state_vector_to_bloch ((1 : ℂ), (0 : ℂ))).2 < 2 * Real.pi := by
  have hne : ((1 : ℂ), (0 : ℂ)) ≠ ((0 : ℂ), (0 : ℂ)) := by
    simp [Prod.ext_iff]
  exact ⟨hne, state_vector_to_bloch_canonical ((1 : ℂ), (0 : ℂ)) hne⟩

/-- C6: for every Bloch angle pair and every supported basis, the orbital
coefficients satisfy sum of |c|^2 = 1; for the sp basis at theta = pi/2,
phi = 0 the 1s and 2s probabilities are each exactly 1/2. -/
theorem bloch_coeffs_normalized :
    (∀ (theta phi : ℝ) (b : String), b = "sp" ∨ b = "pp" ∨ b = "sd" →
      ∃ cs, bloch_to_orbital_coeffs theta phi b = .ok cs ∧
        (cs.map fun p => Complex.abs p.2 ^ 2).sum = 1) ∧
    (∃ c1 c2, bloch_to_orbital_coeffs (Real.pi / 2) 0 "sp" =
        .ok [((1, 0, 0), c1), ((2, 0, 0), c2)] ∧
      Complex.abs c1 ^ 2 = 1 / 2 ∧ Complex.abs c2 ^ 2 = 1 / 2) := by
  constructor
  · rintro theta phi b (rfl | rfl | rfl)
    · refine ⟨_, rfl, ?_⟩
      simp only [List.map_cons, List.map_nil, List.sum_cons, List.sum_nil, add_zero]
      exact bloch_norm_sq theta phi
    · refine ⟨_, rfl, ?_⟩
      simp only [List.map_cons, List.map_nil, List.sum_cons, List.sum_nil, add_zero,
        Complex.abs_ofReal, sq_abs]
      have h1 := Real.sin_sq_add_cos_sq phi
      have h2 := Real.sin_sq_add_cos_sq (theta / 2)
      nlinarith
    · refine ⟨_, rfl, ?_⟩
      simp only [List.map_cons, List.map_nil, List.sum_cons, List.sum_nil, add_zero]
      exact bloch_norm_sq theta phi
  · refine ⟨_, _, rfl, ?_, ?_⟩
    · simp only [bloch_to_state_vector, Complex.abs_ofReal, sq_abs]
      rw [show Real.pi / 2 / 2 = Real.pi / 4 by ring, Real.cos_pi_div_four]
      rw [div_pow, Real.sq_sqrt (by norm_num)]
      norm_num
    · simp only [bloch_to_state_vector, Complex.ofReal_zero, mul_zero,
        Complex.exp_zero, one_mul, Complex.abs_ofReal, sq_abs]
      rw [show Real.pi / 2 / 2 = Real.pi / 4 by ring, Real.sin_pi_div_four]
      rw [div_pow, Real.sq_sqrt (by norm_num)]
      norm_num

/-- C6 witness: the normalization conclusion at theta = pi/2, phi = 0 in the
sp basis. -/
theorem bloch_coeffs_normalized_witness :
    ∃ cs, bloch_to_orbital_coeffs (Real.pi / 2) 0 "sp" = .ok cs ∧
      (cs.map fun p => Complex.abs p.2 ^ 2).sum = 1 :=
  bloch_coeffs_normalized.1 (Real.pi / 2) 0 "sp" (Or.inl rfl)

/-- The accumulation loop of orbital_coeffs_to_density, on coefficient maps
whose keys are all valid, produces the coherent amplitude sum. -/
lemma psi_total_loop_ok (x y z : ℝ) (coeffs : CoeffMap)
    (h : ∀ p ∈ coeffs, valid_qn p.1.1 p.1.2.1 p.1.2.2 = true) :
    ∀ acc : ℂ,
      psi_total_loop x y z coeffs acc =
        .ok (acc + (coeffs.map fun p =>
          p.2 * hydrogen_orbital_val p.1.1 p.1.2.1 p.1.2.2 x y z true).sum) := by
  induction coeffs with
  | nil => intro acc; simp [psi_total_loop]
  | cons p ps ih =>
    intro acc
    have hp : valid_qn p.1.1 p.1.2.1 p.1.2.2 = true := h p (by simp)
    have hps : ∀ q ∈ ps, valid_qn q.1.1 q.1.2.1 q.1.2.2 = true :=
      fun q hq => h q (List.mem_cons_of_mem p hq)
    simp only [psi_total_loop, hydrogen_orbital, hp, if_true, List.map_cons,
      List.sum_cons]
    rw [ih hps]
    simp only [Except.ok.injEq]
    ring

/-- C2: on a coefficient map with valid keys, orbital_coeffs_to_density is
|sum of c_i * psi_i|^2, the amplitudes summed coherently before squaring,
with each psi_i the value of hydrogen_orbital at real_form = true. -/
theorem orbital_coeffs_to_density_coherent (coeffs : CoeffMap) (x y z : ℝ)
    (h : ∀ p ∈ coeffs, valid_qn p.1.1 p.1.2.1 p.1.2.2 = true) :
    orbital_coeffs_to_density coeffs x y z =
      .ok (Complex.abs ((coeffs.map fun p =>
        p.2 * hydrogen_orbital_val p.1.1 p.1.2.1 p.1.2.2 x y z true).sum) ^ 2) ∧
    ∀ p ∈ coeffs, hydrogen_orbital p.1.1 p.1.2.1 p.1.2.2 x y z true =
      .ok (hydrogen_orbital_val p.1.1 p.1.2.1 p.1.2.2 x y z true) := by
  constructor
  · unfold orbital_coeffs_to_density
    rw [psi_total_loop_ok x y z coeffs h 0]
    simp
  · intro p hp
    simp [hydrogen_orbital, h p hp]

/-- C2 witness: the coherent-sum equation at the single-entry map 1s with
amplitude 1, evaluated at the origin. -/
theorem orbital_coeffs_to_density_coherent_witness :
    (∀ p ∈ ([((1, 0, 0), (1 : ℂ))] : CoeffMap),
      valid_qn p.1.1 p.1.2.1 p.1.2.2 = true) ∧
    orbital_coeffs_to_density [((1, 0, 0), (1 : ℂ))] 0 0 0 =
      .ok (Complex.abs ((([((1, 0, 0), (1 : ℂ))] : CoeffMap).map fun p =>
        p.2 * hydrogen_orbital_val p.1.1 p.1.2.1 p.1.2.2 0 0 0 true).sum) ^ 2) := by
  have hv : ∀ p ∈ ([((1, 0, 0), (1 : ℂ))] : CoeffMap),
      valid_qn p.1.1 p.1.2.1 p.1.2.2 = true := by
    intro p hp
    rw [List.mem_singleton] at hp
    subst hp
    rfl
  exact ⟨hv, (orbital_coeffs_to_density_coherent _ 0 0 0 hv).1⟩

lemma b2sv_theta_zero (phi : ℝ) : bloch_to_state_vector 0 phi = (1, 0) := by
  unfold bloch_to_state_vector
  norm_num

lemma sv2b_one_zero : state_vector_to_bloch ((1 : ℂ), (0 : ℂ)) = (0, 0) := by
  rw [sv2b_eq]
  dsimp only
  norm_num [Complex.arg_zero, Complex.arg_one, Real.arccos_one, fmod_zero]

lemma roundtrip_pos (theta phi : ℝ) (h1 : 0 < theta) (h2 : theta ≤ Real.pi)
    (h3 : 0 ≤ phi) (h4 : phi < 2 * Real.pi) :
    state_vector_to_bloch (bloch_to_state_vector theta phi) = (theta, phi) := by
  have hpi := Real.pi_pos
  have hc : 0 ≤ Real.cos (theta / 2) :=
    Real.cos_nonneg_of_mem_Icc ⟨by linarith, by linarith⟩
  have hs : 0 < Real.sin (theta / 2) :=
    Real.sin_pos_of_pos_of_lt_pi (by linarith) (by linarith)
  have hnorm : Real.sqrt (Complex.abs (bloch_to_state_vector theta phi).1 ^ 2 +
      Complex.abs (bloch_to_state_vector theta phi).2 ^ 2) = 1 := by
    rw [bloch_norm_sq]
    exact Real.sqrt_one
  rw [sv2b_eq, hnorm]
  rw [show (bloch_to_state_vector theta phi).1 =
      ((Real.cos (theta / 2) : ℝ) : ℂ) from rfl]
  rw [show (bloch_to_state_vector theta phi).2 =
      Complex.exp (Complex.I * phi) * ((Real.sin (theta / 2) : ℝ) : ℂ) from rfl]
  simp only [Complex.ofReal_one, div_one]
  rw [Complex.abs_ofReal, abs_of_nonneg hc,
    Real.arccos_cos (by linarith) (by linarith),
    Complex.arg_ofReal_of_nonneg hc, sub_zero]
  have hexp : Complex.exp (Complex.I * phi) * ((Real.sin (theta / 2) : ℝ) : ℂ) =
      ((Real.sin (theta / 2) : ℝ) : ℂ) * Complex.exp ((phi : ℂ) * Complex.I) := by
    rw [mul_comm, mul_comm Complex.I]
  rw [hexp, Complex.arg_real_mul _ hs]
  rcases le_or_lt phi Real.pi with hple | hpge
  · rw [Complex.exp_mul_I, Complex.arg_cos_add_sin_mul_I ⟨by linarith, hple⟩]
    rw [fmod_eq_self h3 h4]
    exact Prod.ext (by ring) rfl
  · rw [show ((phi : ℂ) * Complex.I) =
        ((phi - 2 * Real.pi : ℝ) : ℂ) * Complex.I + 2 * Real.pi * Complex.I by
      push_cast
      ring]
    rw [Complex.exp_add, Complex.exp_two_pi_mul_I, mul_one]
    rw [Complex.exp_mul_I, Complex.arg_cos_add_sin_mul_I ⟨by linarith, by linarith⟩]
    rw [fmod_neg_add (by linarith) (by linarith) (by linarith)]
    exact Prod.ext (by ring) (by ring)

/-- C5 amended: the round trip state_vector_to_bloch after
bloch_to_state_vector reproduces (theta, phi) exactly for theta in (0, pi]
and phi in [0, 2 pi); at theta = 0 the azimuth is lost and the round trip
returns (0, 0) for every phi. -/
theorem bloch_roundtrip :
    (∀ theta phi : ℝ, 0 < theta → theta ≤ Real.pi → 0 ≤ phi →
      phi < 2 * Real.pi →
      state_vector_to_bloch (bloch_to_state_vector theta phi) = (theta, phi)) ∧
    (∀ phi : ℝ,
      state_vector_to_bloch (bloch_to_state_vector 0 phi) = (0, 0)) :=
  ⟨roundtrip_pos, fun phi => by rw [b2sv_theta_zero]; exact sv2b_one_zero⟩

/-- C5 witness: the exact round trip at theta = pi/2, phi = 0. -/
theorem bloch_roundtrip_witness :
    state_vector_to_bloch (bloch_to_state_vector (Real.pi / 2) 0) =
      (Real.pi / 2, 0) :=
  bloch_roundtrip.1 (Real.pi / 2) 0 (by positivity)
    (by linarith [Real.pi_pos]) le_rfl (by positivity)

/-- C5 counterexample: (0, pi) lies in the claimed domain theta in [0, pi],
phi in [0, 2 pi), but the round trip returns (0, 0), not (0, pi). -/
theorem bloch_roundtrip_cex :
    (0 : ℝ) ≤ 0 ∧ (0 : ℝ) ≤ Real.pi ∧ (0 : ℝ) ≤ Real.pi ∧
    Real.pi < 2 * Real.pi ∧
    state_vector_to_bloch (bloch_to_state_vector 0 Real.pi) = (0, 0) ∧
    ((0 : ℝ), (0 : ℝ)) ≠ ((0 : ℝ), Real.pi) := by
  have hpi := Real.pi_pos
  refine ⟨le_rfl, hpi.le, hpi.le, by linarith, ?_, ?_⟩
  · rw [b2sv_theta_zero]
    exact sv2b_one_zero
  · intro hcontra
    have := congrArg Prod.snd hcontra
    simp only at this
    exact Real.pi_ne_zero this.symm

lemma b2sv_pi_half_zero :
    bloch_to_state_vector (Real.pi / 2) 0 =
      (((Real.sqrt 2 / 2 : ℝ) : ℂ), ((Real.sqrt 2 / 2 : ℝ) : ℂ)) := by
  unfold bloch_to_state_vector
  rw [show Real.pi / 2 / 2 = Real.pi / 4 by ring, Real.cos_pi_div_four,
    Real.sin_pi_div_four]
  norm_num

lemma sv2b_equal_halves :
    state_vector_to_bloch (((Real.sqrt 2 / 2 : ℝ) : ℂ), ((Real.sqrt 2 / 2 : ℝ) : ℂ)) =
      (Real.pi / 2, 0) := by
  have hhalf : (0 : ℝ) < Real.sqrt 2 / 2 := by positivity
  have hsq : (Real.sqrt 2 / 2 : ℝ) ^ 2 = 1 / 2 := by
    rw [div_pow, Real.sq_sqrt (by norm_num)]
    norm_num
  rw [sv2b_eq]
  dsimp only
  rw [Complex.abs_ofReal, abs_of_nonneg hhalf.le, hsq]
  rw [show (1 / 2 + 1 / 2 : ℝ) = 1 by norm_num, Real.sqrt_one, Complex.ofReal_one,
    div_one, sub_self, fmod_zero]
  rw [Complex.abs_ofReal, abs_of_nonneg hhalf.le]
  rw [← Real.cos_pi_div_four,
    Real.arccos_cos (by positivity) (by linarith [Real.pi_pos])]
  exact Prod.ext (by ring) rfl

lemma gate_step_H_zero :
    apply_gate_to_bloch 0 0 (.named "H") = .ok (Real.pi / 2, 0) := by
  have h1 : apply_gate_to_state (bloch_to_state_vector 0 0) (GateArg.named "H") =
      .ok (((Real.sqrt 2 / 2 : ℝ) : ℂ), ((Real.sqrt 2 / 2 : ℝ) : ℂ)) := by
    rw [b2sv_theta_zero]
    show Except.ok (HADAMARD.apply (1, 0)) = _
    rw [show HADAMARD.apply (1, 0) =
        (((1 / Real.sqrt 2 : ℝ) : ℂ), ((1 / Real.sqrt 2 : ℝ) : ℂ)) by
      unfold HADAMARD Mat2.apply
      norm_num]
    rw [one_div_sqrt_two]
  show apply_gate_to_state (bloch_to_state_vector 0 0) (GateArg.named "H") >>=
    (fun new_state => pure (state_vector_to_bloch new_state)) = _
  rw [h1]
  show Except.ok (state_vector_to_bloch _) = _
  rw [sv2b_equal_halves]

lemma gate_step_X_pi_half :
    apply_gate_to_bloch (Real.pi / 2) 0 (.named "X") = .ok (Real.pi / 2, 0) := by
  have h1 : apply_gate_to_state (bloch_to_state_vector (Real.pi / 2) 0)
      (GateArg.named "X") =
      .ok (((Real.sqrt 2 / 2 : ℝ) : ℂ), ((Real.sqrt 2 / 2 : ℝ) : ℂ)) := by
    rw [b2sv_pi_half_zero]
    show Except.ok (PAULI_X.apply _) = _
    unfold PAULI_X Mat2.apply
    norm_num
  show apply_gate_to_state (bloch_to_state_vector (Real.pi / 2) 0)
    (GateArg.named "X") >>=
    (fun new_state => pure (state_vector_to_bloch new_state)) = _
  rw [h1]
  show Except.ok (state_vector_to_bloch _) = _
  rw [sv2b_equal_halves]

lemma gate_step_H_pi_half :
    apply_gate_to_bloch (Real.pi / 2) 0 (.named "H") = .ok (0, 0) := by
  have hne : ((Real.sqrt 2 : ℝ) : ℂ) ≠ 0 :=
    Complex.ofReal_ne_zero.mpr (by positivity)
  have h1 : apply_gate_to_state (bloch_to_state_vector (Real.pi / 2) 0)
      (GateArg.named "H") = .ok ((1 : ℂ), (0 : ℂ)) := by
    rw [b2sv_pi_half_zero]
    show Except.ok (HADAMARD.apply _) = _
    unfold HADAMARD Mat2.apply
    dsimp only
    rw [Except.ok.injEq, Prod.mk.injEq]
    constructor
    · rw [Complex.ofReal_div]
      push_cast
      rw [div_mul_div_comm, one_mul, mul_comm ((Real.sqrt 2 : ℝ) : ℂ) 2,
        div_mul_eq_div_div_swap, div_self hne]
      norm_num
    · ring
  show apply_gate_to_state (bloch_to_state_vector (Real.pi / 2) 0)
    (GateArg.named "H") >>=
    (fun new_state => pure (state_vector_to_bloch new_state)) = _
  rw [h1]
  show Except.ok (state_vector_to_bloch _) = _
  rw [sv2b_one_zero]

/-- C4 amended: from the |0> state theta = 0, phi = 0, applying H yields
exactly (pi/2, 0); applying X leaves (pi/2, 0); applying H again yields
theta = 0 (the state returns to |0>, since H X H = Z fixes |0>), not
theta = pi. -/
theorem gate_sequence_H_X_H :
    apply_gate_to_bloch 0 0 (.named "H") = .ok (Real.pi / 2, 0) ∧
    apply_gate_to_bloch (Real.pi / 2) 0 (.named "X") = .ok (Real.pi / 2, 0) ∧
    apply_gate_to_bloch (Real.pi / 2) 0 (.named "H") = .ok (0, 0) :=
  ⟨gate_step_H_zero, gate_step_X_pi_half, gate_step_H_pi_half⟩

/-- C4 counterexample: running the claimed sequence H, X, H from theta = 0,
phi = 0 ends at theta = 0, which is not within 1e-6 of pi. -/
theorem gate_sequence_final_theta_not_pi :
    apply_gate_to_bloch 0 0 (.named "H") = .ok (Real.pi / 2, 0) ∧
    apply_gate_to_bloch (Real.pi / 2) 0 (.named "X") = .ok (Real.pi / 2, 0) ∧
    apply_gate_to_bloch (Real.pi / 2) 0 (.named "H") = .ok (0, 0) ∧
    ¬ |(0 : ℝ) - Real.pi| ≤ 1e-6 := by
  refine ⟨gate_step_H_zero, gate_step_X_pi_half, gate_step_H_pi_half, ?_⟩
  rw [zero_sub, abs_neg, abs_of_nonneg Real.pi_pos.le]
  intro hle
  have h3 := Real.pi_gt_three
  norm_num at hle
  linarith

lemma radial_zero (n l : ℕ) :
    radial_wavefunction n l 0 =
      if 0 < l then 0 else radial_norm_factor n l := by
  unfold radial_wavefunction
  rw [if_pos rfl]

lemma cart_origin : cartesian_to_spherical 0 0 0 = (0, Real.pi / 2, 0) := by
  unfold cartesian_to_spherical clip arctan2
  have hr : Real.sqrt (0 ^ 2 + 0 ^ 2 + 0 ^ 2) = 0 := by norm_num
  rw [hr]
  have harg : Complex.arg ⟨0, 0⟩ = 0 := Complex.arg_zero
  rw [harg]
  norm_num

lemma legendreP_zero_eq : legendreP 0 = 1 := by
  unfold legendreP
  rw [Finset.sum_range_one]
  norm_num

lemma lpmv_zero_zero (x : ℝ) : lpmv 0 0 x = 1 := by
  unfold lpmv assocLegendre
  rw [if_pos le_rfl]
  simp [legendreP_zero_eq]

lemma sph_harm_l0_m0 (theta phi : ℝ) :
    spherical_harmonic 0 0 theta phi true =
      ((Real.sqrt (1 / (4 * Real.pi)) : ℝ) : ℂ) := by
  unfold spherical_harmonic
  rw [if_neg (by simp)]
  unfold scipy_sph_harm
  rw [lpmv_zero_zero]
  norm_num

lemma hydrogen_orbital_val_origin_lpos (n l : ℕ) (m : ℤ) (hl : 0 < l) :
    hydrogen_orbital_val n l m 0 0 0 true = 0 := by
  unfold hydrogen_orbital_val
  rw [cart_origin]
  dsimp only
  rw [radial_zero, if_pos hl]
  norm_num

lemma hydrogen_orbital_val_origin_s (n : ℕ) :
    hydrogen_orbital_val n 0 0 0 0 0 true =
      ((radial_norm_factor n 0 * Real.sqrt (1 / (4 * Real.pi)) : ℝ) : ℂ) := by
  unfold hydrogen_orbital_val
  rw [cart_origin]
  dsimp only
  rw [radial_zero, if_neg (lt_irrefl 0), sph_harm_l0_m0]
  rw [← Complex.ofReal_mul]

/-- C3 amended: at the origin, hydrogen_orbital is 0 for every valid triple
with l > 0; for l = 0 it equals the radial normalization constant
multiplied by the spherical harmonic Y00 = sqrt(1/(4 pi)) = 1/(2 sqrt pi),
not the bare radial constant. -/
theorem hydrogen_orbital_origin (n l : ℕ) (m : ℤ)
    (h : valid_qn n l m = true) :
    (0 < l → hydrogen_orbital n l m 0 0 0 true = .ok 0) ∧
    (l = 0 → hydrogen_orbital n l m 0 0 0 true =
      .ok ((radial_norm_factor n 0 * Real.sqrt (1 / (4 * Real.pi)) : ℝ) : ℂ)) := by
  constructor
  · intro hl
    rw [hydrogen_orbital, if_pos h, hydrogen_orbital_val_origin_lpos n l m hl]
  · intro hl
    subst hl
    have hm : m = 0 := by
      simp only [valid_qn, Bool.and_eq_true, decide_eq_true_eq] at h
      omega
    subst hm
    rw [hydrogen_orbital, if_pos h, hydrogen_orbital_val_origin_s n]

/-- C3 witness: the l > 0 conclusion at the valid triple (2, 1, 0). -/
theorem hydrogen_orbital_origin_witness :
    valid_qn 2 1 0 = true ∧ hydrogen_orbital 2 1 0 0 0 0 true = .ok 0 :=
  ⟨rfl, (hydrogen_orbital_origin 2 1 0 rfl).1 (by norm_num)⟩

/-- C3 counterexample: for the 1s orbital the precomputed radial
normalization constant is 2, but hydrogen_orbital at the origin is
2 * sqrt(1/(4 pi)) = 1/sqrt pi, which differs from 2. -/
theorem hydrogen_orbital_origin_ne_table :
    RADIAL_NORMALIZATION (1, 0) = some 2 ∧
    hydrogen_orbital 1 0 0 0 0 0 true ≠ .ok ((2 : ℝ) : ℂ) := by
  refine ⟨rfl, ?_⟩
  have hv100 : valid_qn 1 0 0 = true := rfl
  have hval : hydrogen_orbital 1 0 0 0 0 0 true =
      .ok ((radial_norm_factor 1 0 * Real.sqrt (1 / (4 * Real.pi)) : ℝ) : ℂ) := by
    rw [hydrogen_orbital, if_pos hv100, hydrogen_orbital_val_origin_s 1]
  rw [hval]
  simp only [ne_eq, Except.ok.injEq, Complex.ofReal_inj]
  intro hc
  have h1 : radial_norm_factor 1 0 = 2 := by
    unfold radial_norm_factor
    norm_num [Nat.factorial]
    rw [show (4 : ℝ) = 2 ^ 2 by norm_num]
    exact Real.sqrt_sq (by norm_num)
  rw [h1] at hc
  have h2 : Real.sqrt (1 / (4 * Real.pi)) < 1 := by
    rw [Real.sqrt_lt' one_pos, one_pow, div_lt_one (by positivity)]
    linarith [Real.pi_gt_three]
  linarith

lemma except_bind_ok_inv {α β : Type _} {e : Except String α}
    {f : α → Except String β} {b : β} (h : e >>= f = .ok b) :
    ∃ a, e = .ok a ∧ f a = .ok b := by
  cases e with
  | error msg => exact Except.noConfusion h
  | ok a => exact ⟨a, rfl, h⟩

lemma set_bloch_state_spec (s : BlochOrbitalState) (th ph : ℝ)
    (s' : BlochOrbitalState) (hmut : s.set_bloch_state th ph = .ok s') :
    s'.densityCache = none ∧ s'.theta = th ∧ s'.phi = ph ∧
    s'.state_vector = bloch_to_state_vector th ph ∧
    bloch_to_orbital_coeffs th ph s.basis = .ok s'.orbital_coeffs := by
  unfold BlochOrbitalState.set_bloch_state at hmut
  obtain ⟨cs, hco, hpure⟩ := except_bind_ok_inv hmut
  have hrec := Except.ok.inj hpure
  subst hrec
  exact ⟨rfl, rfl, rfl, rfl, hco⟩

/-- C8 amended: the four mutator methods set_bloch_state, set_state_vector,
set_pure_state and apply_gate each clear the density cache and recompute
the state vector and orbital coefficients; the basis field, by contrast,
has no mutator method, and a plain attribute write leaves everything else
(including a stale cache) in place. -/
theorem mutators_recompute_and_invalidate :
    (∀ (s : BlochOrbitalState) (th ph : ℝ) (s' : BlochOrbitalState),
        s.set_bloch_state th ph = .ok s' →
        s'.densityCache = none ∧ s'.theta = th ∧ s'.phi = ph ∧
        s'.state_vector = bloch_to_state_vector th ph ∧
        bloch_to_orbital_coeffs th ph s.basis = .ok s'.orbital_coeffs) ∧
    (∀ (s : BlochOrbitalState) (v : ℂ × ℂ) (s' : BlochOrbitalState),
        s.set_state_vector v = .ok s' →
        s'.densityCache = none ∧
        bloch_to_orbital_coeffs s'.theta s'.phi s.basis = .ok s'.orbital_coeffs) ∧
    (∀ (s : BlochOrbitalState) (nm : String) (s' : BlochOrbitalState),
        s.set_pure_state nm = .ok s' →
        s'.densityCache = none ∧
        s'.state_vector = bloch_to_state_vector s'.theta s'.phi ∧
        bloch_to_orbital_coeffs s'.theta s'.phi s.basis = .ok s'.orbital_coeffs) ∧
    (∀ (s : BlochOrbitalState) (g : GateArg) (s' : BlochOrbitalState),
        s.apply_gate g = .ok s' →
        s'.densityCache = none ∧
        s'.state_vector = bloch_to_state_vector s'.theta s'.phi ∧
        bloch_to_orbital_coeffs s'.theta s'.phi s.basis = .ok s'.orbital_coeffs) := by
  refine ⟨set_bloch_state_spec, ?_, ?_, ?_⟩
  · intro s v s' hmut
    unfold BlochOrbitalState.set_state_vector at hmut
    obtain ⟨cs, hco, hpure⟩ := except_bind_ok_inv hmut
    have hrec := Except.ok.inj hpure
    subst hrec
    exact ⟨rfl, hco⟩
  · intro s nm s' hmut
    unfold BlochOrbitalState.set_pure_state at hmut
    cases hinfo : BLOCH_PURE_STATES nm with
    | none => rw [hinfo] at hmut; exact Except.noConfusion hmut
    | some info =>
      rw [hinfo] at hmut
      obtain ⟨hcache, hth, hph, hsv, hco⟩ := set_bloch_state_spec s _ _ s' hmut
      rw [← hth, ← hph] at hsv hco
      exact ⟨hcache, hsv, hco⟩
  · intro s g s' hmut
    unfold BlochOrbitalState.apply_gate at hmut
    obtain ⟨tp, _, hset⟩ := except_bind_ok_inv hmut
    obtain ⟨hcache, hth, hph, hsv, hco⟩ := set_bloch_state_spec s _ _ s' hset
    rw [← hth, ← hph] at hsv hco
    exact ⟨hcache, hsv, hco⟩

/-- C8 witness: the set_bloch_state conclusion at the concrete initial
state with angles (0, 0). -/
theorem mutators_recompute_and_invalidate_witness :
    pre_init_state.set_bloch_state 0 0 = .ok example_mutated_state ∧
    example_mutated_state.densityCache = none :=
  ⟨rfl, (mutators_recompute_and_invalidate.1 pre_init_state 0 0
    example_mutated_state rfl).1⟩

/-- C8 counterexample: build an sp state, fill its density cache at
resolution 4, then change the basis by attribute write to pp.  The cache
is still present, the coefficient dict still has the 2 sp entries (a pp
dict has 3), and a later density query still returns the resolution-4 grid
computed before the mutation, so the stale pre-mutation grid is
observable. -/
theorem set_basis_attr_keeps_stale_state :
    (BlochOrbitalState.init 0 0 "sp").map
      (fun s0 =>
        let s1 := (s0.calculate_density_grid (some 4) (some 10) true).2
        let s2 := s1.set_basis_attr "pp"
        (s2.densityCache.isSome, s2.orbital_coeffs.length,
          (s2.calculate_density_grid (some 8) (some 10) true).1.resolution)) =
      .ok (true, 2, 4) ∧
    (2 : ℕ) ≠ 3 ∧ (4 : ℕ) ≠ 8 :=
  ⟨rfl, by norm_num, by norm_num⟩

/-- C1 amended: calculate_density_grid returns the cached grid whenever
use_cache holds and a cache is present, without comparing the requested
resolution and extent against those of the cached grid; only when the
cache is empty or use_cache is false does it resample at the requested
resolution and extent (then storing the new grid). -/
theorem calculate_density_grid_cache_spec :
    (∀ (s : BlochOrbitalState) (res : Option ℕ) (ext : Option ℝ) (g : GridData),
        s.densityCache = some g →
        s.calculate_density_grid res ext true = (g, s)) ∧
    (∀ (s : BlochOrbitalState) (res : ℕ) (ext : ℝ),
        s.densityCache = none →
        s.calculate_density_grid (some res) (some ext) true =
          (mkDensityGrid s.orbital_coeffs res ext,
            { s with densityCache := some (mkDensityGrid s.orbital_coeffs res ext) })) ∧
    (∀ (s : BlochOrbitalState) (res : ℕ) (ext : ℝ),
        s.calculate_density_grid (some res) (some ext) false =
          (mkDensityGrid s.orbital_coeffs res ext,
            { s with densityCache := some (mkDensityGrid s.orbital_coeffs res ext) })) := by
  refine ⟨?_, ?_, ?_⟩
  · intro s res ext g h
    unfold BlochOrbitalState.calculate_density_grid
    rw [h]
  · intro s res ext h
    unfold BlochOrbitalState.calculate_density_grid
    rw [h]
    rfl
  · intro s res ext
    unfold BlochOrbitalState.calculate_density_grid
    cases s.densityCache <;> rfl

/-- C1 witness: a state whose cache holds a resolution-4, extent-10 grid
answers a resolution-8 query with that cached grid unchanged. -/
theorem calculate_density_grid_cache_spec_witness :
    example_cached_state.densityCache = some example_grid ∧
    example_cached_state.calculate_density_grid (some 8) (some 10) true =
      (example_grid, example_cached_state) :=
  ⟨rfl, calculate_density_grid_cache_spec.1 example_cached_state
    (some 8) (some 10) example_grid rfl⟩

/-- C1 counterexample: from a fresh sp state, a first density query at
resolution 4 fills the cache; a second query requesting resolution 8 with
use_cache on returns the stale resolution-4 grid instead of resampling. -/
theorem calculate_density_grid_stale_resolution :
    (BlochOrbitalState.init 0 0 "sp").map
      (fun s0 =>
        ((s0.calculate_density_grid (some 4) (some 10) true).2.calculate_density_grid
          (some 8) (some 10) true).1.resolution) = .ok 4 ∧
    (4 : ℕ) ≠ 8 :=
  ⟨rfl, by norm_num⟩

end SystemQuantum
